import Mathlib

/-!
Verification development for the KoSpeech fragment: the attentional
sequence decoder `Speller` (src/model/speller.py), the configuration
object (src/package/config.py) and the data-loading helpers
(src/utils/load.py).

Tensors are shallowly embedded as nested lists over `ℤ` (the host
framework's floating-point numerics are abstracted to integers, and
learned neural components --- the torch RNN cell, the multi-head
attention module of the absent model/attention.py, the embedding table
and the `log_softmax` kernel --- are abstracted as function fields of
the `Speller` structure; the claims under study are about the decoder's
orchestration, not about the numerics of those kernels).

The stochastic teacher-forcing draw (`random.random()`) is embedded as
an explicit stream `rand : ℕ → ℚ` of which the code reads entry `0`
once, exactly as the source calls `random.random()` once per `forward`.
-/

namespace KoSpeech

/-- Token ids (entries of the integer `inputs` tensor). -/
abbrev Tok := Nat

/-- A 1-D tensor of scores. -/
abbrev Vec := List ℤ

/-- A 2-D tensor. -/
abbrev Mat := List Vec

/-- A 3-D tensor. -/
abbrev Tensor3 := List Mat

/-- A tensor whose rank is only known at run time.  `forward_step`
produces a rank-2 tensor (it ends in `view(-1, hidden_dim)` followed by
`fc` and `log_softmax`), and the callers reshape or index it; indexing
with three indices is only legal on rank 3, which is how the
teacher-forced branch's `predicted_softmax[:, di, :]` fails. -/
inductive PTensor where
  | rank2 (m : Mat)
  | rank3 (t : Tensor3)
deriving DecidableEq

/-- The rows of a tensor when it is read as a flat batch of vectors,
i.e. the result of `view(-1, last_dim)`. -/
def PTensor.toRows : PTensor → Mat
  | .rank2 m => m
  | .rank3 t => t.flatten

/-- `t.size(1)`. -/
def PTensor.size1 : PTensor → Nat
  | .rank2 m => (m.headD []).length
  | .rank3 t => (t.headD []).length

/-- `t[:, di, :]`: legal only on a rank-3 tensor; on rank 2 PyTorch
raises `IndexError: too many indices`. -/
def PTensor.sliceMid : PTensor → Nat → Except String Mat
  | .rank3 t, di => .ok (t.map (fun m => m.getD di []))
  | .rank2 _, _ => .error "IndexError: too many indices for tensor of dimension 2"

/-- Group a list into consecutive chunks of size `g` (the row-grouping
effect of `view(b, g, -1)` on a rank-2 tensor of `b * g` rows). -/
def chunk (g : ℕ) (l : List α) : List (List α) :=
  (List.range (l.length / g)).map (fun i => (l.drop (i * g)).take g)

/-- `t.view(b, g, -1)`: regroup the flat rows into chunks of `g` rows. -/
def PTensor.view3grp (t : PTensor) (g : ℕ) : Tensor3 :=
  chunk g t.toRows

/-- `t.squeeze(1)`: drops dimension 1 exactly when it has size 1,
otherwise leaves the tensor unchanged. -/
def squeezeDim1 (t : Tensor3) : PTensor :=
  if t.all (fun grp => grp.length = 1) then .rank2 (t.map (fun grp => grp.headD []))
  else .rank3 t

/-- `t.transpose(0, 1)` for a rectangular nested list (`d` is the
padding value used off the rectangle, never reached on rectangular
input). -/
def transpose01 (d : α) (l : List (List α)) : List (List α) :=
  (List.range ((l.headD []).length)).map (fun i => l.map (fun r => r.getD i d))

/-- `torch.stack(outs, dim=1)` for a list of equally-shaped rank-2
step outputs `(batch, n_class)`, producing `(batch, steps, n_class)`. -/
def stackDim1 (outs : List Mat) : Tensor3 :=
  (List.range ((outs.headD []).length)).map (fun b => outs.map (fun m => m.getD b []))

/-- `torch.max(v, dim=-1)[1]` on one row: the index of the first maximal
entry. -/
def argmaxIdx (v : Vec) : ℕ :=
  v.findIdx (fun x => decide (∀ y ∈ v, y ≤ x))

/-- `m.topk(1)[1]` on a `(batch, n_class)` tensor: one top index per
row, keeping the trailing dimension of size 1. -/
def topkIdx1 (m : Mat) : List (List Tok) :=
  m.map (fun row => [argmaxIdx row])

/-- Recurrent hidden state: a plain tensor for GRU/RNN cells, an
`(h, c)` pair for LSTM. -/
inductive HState where
  | single (t : Tensor3)
  | pair (h c : Tensor3)
deriving DecidableEq

/-- Whether the hidden state is an `(h, c)` pair. -/
def HState.isPair : HState → Bool
  | .single _ => false
  | .pair _ _ => true

/-- An all-zero tensor of shape `(l, b, h)`. -/
def zeros3 (l b h : ℕ) : Tensor3 :=
  List.replicate l (List.replicate b (List.replicate h (0 : ℤ)))

/-- The keys of the `supported_rnns` dict of src/model/speller.py. -/
def supported_rnns : List String := ["lstm", "gru", "rnn"]

/-- Python `str.lower()` (ASCII range, which is all the source compares
against). -/
def pyLower (s : String) : String :=
  String.mk (s.data.map Char.toLower)

/-- `Speller._init_state`: all-zero hidden state of shape
`(n_layers, batch_size, hidden_dim)`, an `(h, c)` pair exactly when the
constructed cell is an LSTM (i.e. the cell key is `"lstm"`). -/
def init_state (cell : String) (n_layers batch_size hidden_dim : ℕ) : HState :=
  if cell = "lstm" then
    HState.pair (zeros3 n_layers batch_size hidden_dim) (zeros3 n_layers batch_size hidden_dim)
  else
    HState.single (zeros3 n_layers batch_size hidden_dim)

/-- The ways `Speller.__init__` can fail: the explicit
`assert rnn_type.lower() in supported_rnns.keys()`, or the subsequent
`supported_rnns[rnn_type]` dict lookup (which uses the *original*,
un-lowered string as key). -/
inductive InitError where
  | assertError
  | keyError
deriving DecidableEq

/-- `Speller.__init__`'s handling of `rnn_type` (src/model/speller.py
lines 54 and 57): first the assertion on `rnn_type.lower()`, then the
dict lookup `supported_rnns[rnn_type]` with the original string.  On
success it returns the key of the chosen cell class. -/
def speller_init (rnn_type : String) : Except InitError String :=
  if pyLower rnn_type ∈ supported_rnns then
    if rnn_type ∈ supported_rnns then .ok rnn_type
    else .error .keyError
  else .error .assertError

/-- The `Speller` module.  Sizes and special ids are the constructor
arguments; the learned sub-modules (embedding table, dropout, the
recurrent cell, the multi-head attention of the absent
model/attention.py, and `log_softmax`) are abstracted as functions,
while the final `fc : Linear(hidden_dim, n_class)` layer is kept
concrete as a weight matrix and bias so that the output width is
visible. -/
structure Speller where
  n_class : ℕ
  max_length : ℕ
  hidden_dim : ℕ
  sos_id : Tok
  eos_id : Tok
  n_layers : ℕ
  k : ℕ
  rnnType : String
  embeddingF : Tok → Vec
  dropoutF : Vec → Vec
  rnnF : Tensor3 → HState → Tensor3 × HState
  attentionF : Tensor3 → Tensor3 → Tensor3
  log_softmaxF : Vec → Vec
  fcW : Mat
  fcB : Vec

/-- Dot product over `ℤ`. -/
def dotQ (a b : Vec) : ℤ :=
  (List.zipWith (fun x y => x * y) a b).sum

/-- `self.fc`, a `Linear(hidden_dim, n_class)` applied to one row. -/
def Speller.fcApply (s : Speller) (v : Vec) : Vec :=
  List.zipWith (fun w b => dotQ w v + b) s.fcW s.fcB

/-- The embedding-plus-input-dropout stage of `forward_step`. -/
def Speller.embeddedOf (s : Speller) (input_var : List (List Tok)) : Tensor3 :=
  input_var.map (fun row => row.map (fun t => s.dropoutF (s.embeddingF t)))

/-- `Speller._init_state(batch_size)` on the module itself. -/
def Speller.initState (s : Speller) (batch_size : ℕ) : HState :=
  init_state s.rnnType s.n_layers batch_size s.hidden_dim

/-- `Speller.forward_step` (src/model/speller.py lines 71-85): embed the
tokens, apply input dropout, run the recurrent cell with the carried-in
hidden state, attend between the cell output and the listener outputs,
then `fc` + `log_softmax` on the rows of `context.view(-1, hidden_dim)`.
The result is a rank-2 tensor `(batch * seq, n_class)` plus the updated
hidden state.  (A 1-D `input_var` is unsqueezed to one token per row by
the caller model; `self.training` / `flatten_parameters` have no
functional effect.) -/
def Speller.forward_step (s : Speller) (input_var : List (List Tok)) (h_state : HState)
    (listener_outputs : Tensor3) : PTensor × HState :=
  let embedded := s.embeddedOf input_var
  let ro := s.rnnF embedded h_state
  let context := s.attentionF ro.1 listener_outputs
  (PTensor.rank2 (context.flatten.map (fun v => s.log_softmaxF (s.fcApply v))), ro.2)

/-- `inputs[inputs != eos_id]`: boolean-mask indexing flattens the
tensor row-major and keeps every element different from `eos_id`. -/
def maskedInputs (inputs : List (List Tok)) (eos : Tok) : List Tok :=
  inputs.flatten.filter (fun t => t ≠ eos)

/-- `t.view(b, -1)` on a flat list: succeeds iff the element count is
nonzero and divisible by `b`, giving `b` rows of `len / b` elements
(PyTorch cannot infer the `-1` dimension for an empty tensor, and a
non-divisible count is a shape error). -/
def pyView2 (l : List α) (b : ℕ) : Option (List (List α)) :=
  if l.length ≠ 0 ∧ b ≠ 0 ∧ l.length % b = 0 then
    some ((List.range b).map (fun i => (l.drop (i * (l.length / b))).take (l.length / b)))
  else none

/-- The teacher-forced branch of `Speller.forward` (lines 134-140):
strip every `eos_id`, reshape to `batch_size` rows, run one
`forward_step` over the whole sequence, then slice the per-step outputs
out of the result with `predicted_softmax[:, di, :]` for
`di < predicted_softmax.size(1)`. -/
def tfModeD (s : Speller) (inputs : List (List Tok)) (listener_outputs : Tensor3)
    (h_state : HState) : Except String (List Mat) :=
  let batch_size := inputs.length
  match pyView2 (maskedInputs inputs s.eos_id) batch_size with
  | none => .error "RuntimeError: invalid view of masked inputs"
  | some inputs' =>
    let pr := s.forward_step inputs' h_state listener_outputs
    (List.range pr.1.size1).mapM (fun di => pr.1.sliceMid di)

/-- One iteration of the greedy (non-teacher-forced) loop of
`Speller.forward` (lines 145-149): a `forward_step` on the current
`input_var`, reshape the rank-2 result with
`view(batch_size, input_var.size(1), -1).squeeze(1)`, append it to
`decode_outputs`, and take the next `input_var` as
`decode_outputs[-1].topk(1)[1]`. -/
def gStep (s : Speller) (listener_outputs : Tensor3)
    (st : List Mat × List (List Tok) × HState) : List Mat × List (List Tok) × HState :=
  let pr := s.forward_step st.2.1 st.2.2 listener_outputs
  let cols := (st.2.1.headD []).length
  let step_output := (squeezeDim1 (pr.1.view3grp cols)).toRows
  let outs' := st.1 ++ [step_output]
  (outs', topkIdx1 ((outs'.getLast?).getD []), pr.2)

/-- `n` iterations of the greedy loop. -/
def gRun (s : Speller) (listener_outputs : Tensor3) :
    ℕ → (List Mat × List (List Tok) × HState) → List Mat × List (List Tok) × HState
  | 0, st => st
  | n + 1, st => gStep s listener_outputs (gRun s listener_outputs n st)

/-- The greedy (non-teacher-forced) branch of `Speller.forward` (lines
142-149): start from `inputs[:, 0].unsqueeze(1)` and loop
`max_length = inputs.size(1) - 1` times. -/
def greedyModeD (s : Speller) (inputs : List (List Tok)) (listener_outputs : Tensor3)
    (h_state : HState) : Except String (List Mat) :=
  let max_length := (inputs.headD []).length - 1
  let iv0 := inputs.map (fun r => [r.headD 0])
  .ok (gRun s listener_outputs max_length ([], iv0, h_state)).1

/-- Modelled from the spec: the `Beam` class of model/beam.py is
imported by src/model/speller.py but its source is not part of this
fragment, so it is modelled as an abstract interface whose signature is
read off the call sites in `Speller.forward` (one beam per batch item;
`current_predictions` yields the `k` tokens to feed next;
`advance` consumes the `(k, n_class)` score slice of one step;
`sort_finished`/`get_hyp` expose the ranked finished hypotheses;
`fill_empty_sequence` pads a probability sequence to a given length). -/
structure BeamImpl (β : Type) where
  init : ℕ → Tok → Tok → β
  current_predictions : β → List Tok
  advance : β → Mat → β
  sort_finished : β → ℕ → List (ℕ × ℕ)
  get_hyp : β → ℕ → ℕ → List Tok × ℕ × List Vec
  fill_empty_sequence : List Vec → ℕ → List Vec

/-- `for idx, beam in enumerate(beams): beam.advance(ps3[idx, :])`,
walking beams and score slices in lockstep; a missing slice is the
empty default, matching `List.getD`. -/
def advanceAll (impl : BeamImpl β) : List β → Tensor3 → List β
  | [], _ => []
  | b :: bs, m :: ms => impl.advance b m :: advanceAll impl bs ms
  | b :: bs, [] => impl.advance b [] :: advanceAll impl bs []

/-- `tensor.repeat` along dimension 1: the row block of every layer is
tiled `k` times (`Speller._inflate(h, k, dim=1)` on one tensor). -/
def inflateDim1 (t : Tensor3) (k : ℕ) : Tensor3 :=
  t.map (fun m => (List.replicate k m).flatten)

/-- `Speller._inflate(h_state, k, dim=1)` lifted over both members of
an LSTM state pair. -/
def HState.inflate1 (h : HState) (k : ℕ) : HState :=
  match h with
  | .single t => .single (inflateDim1 t k)
  | .pair a c => .pair (inflateDim1 a k) (inflateDim1 c k)

/-- Lines 99-102 of src/model/speller.py: inflate the listener outputs
`k` times along dimension 0, view as `(k, batch, len, dim)`, transpose
the first two dimensions and flatten back to `(batch * k, len, dim)`. -/
def inflateListener (listener_outputs : Tensor3) (k batch : ℕ) : Tensor3 :=
  let l1 := (List.replicate k listener_outputs).flatten
  let l2 := chunk batch l1
  (transpose01 ([] : Mat) l2).flatten

/-- One iteration of the beam-search loop of `Speller.forward` (lines
106-114): stack the beams' current predictions, flatten to a 1-D token
tensor (unsqueezed to one token per row inside the step), run
`forward_step`, view the scores as `(batch, k, n_class)` and advance
every beam once with its slice. -/
def beamStep (s : Speller) (impl : BeamImpl β) (listener_outputs : Tensor3)
    (st : List β × HState) : List β × HState :=
  let input_var := (st.1.map impl.current_predictions).flatten
  let iv2 := input_var.map (fun t => [t])
  let pr := s.forward_step iv2 st.2 listener_outputs
  let ps3 := pr.1.view3grp s.k
  (advanceAll impl st.1 ps3, pr.2)

/-- `n` iterations of the beam-search loop. -/
def beamRun (s : Speller) (impl : BeamImpl β) (listener_outputs : Tensor3) :
    ℕ → (List β × HState) → List β × HState
  | 0, st => st
  | n + 1, st => beamStep s impl listener_outputs (beamRun s impl listener_outputs n st)

/-- Lines 118-125 of src/model/speller.py applied to one finished beam:
take the top-ranked entry of `sort_finished(k)`, fetch its hypothesis'
probability sequence and pad it to `max_length`. -/
def beamTopProb (s : Speller) (impl : BeamImpl β) (max_length : ℕ) (beam : β) : List Vec :=
  let ks := impl.sort_finished beam s.k
  let tk := ks.headD (0, 0)
  let g := impl.get_hyp beam tk.1 tk.2
  impl.fill_empty_sequence g.2.2 max_length

/-- The beam-search branch of `Speller.forward` (lines 96-131): inflate
state and listener outputs by the beam width, run one beam per batch
item for `max_length` steps, then collect the padded top-hypothesis
probability sequences, transpose them into per-step outputs and return
those as `decode_outputs`. -/
def beamModeD (s : Speller) (impl : BeamImpl β) (inputs : List (List Tok))
    (listener_outputs : Tensor3) (h_state : HState) : Except String (List Mat) :=
  let max_length := (inputs.headD []).length - 1
  let h1 := h_state.inflate1 s.k
  let batch_size := listener_outputs.length
  let listener' := inflateListener listener_outputs s.k batch_size
  let beams0 := (List.range batch_size).map (fun _ => impl.init s.k s.sos_id s.eos_id)
  let fin := beamRun s impl listener' max_length (beams0, h1)
  let probs := fin.1.map (beamTopProb s impl max_length)
  .ok (transpose01 ([] : Vec) probs)

/-- Lines 151-152 of src/model/speller.py: stack the collected step
outputs along dimension 1 and take the per-position argmax.
`torch.stack` of an empty list is an error. -/
def finalize (outs : List Mat) : Except String (List (List ℕ) × Tensor3) :=
  if outs.isEmpty then .error "RuntimeError: stack expects a non-empty TensorList"
  else
    let logits := stackDim1 outs
    .ok (logits.map (fun m => m.map argmaxIdx), logits)

/-- `Speller.forward` (src/model/speller.py lines 87-154).  The single
`random.random()` call is entry `0` of the explicit stream `rand`; the
three generation modes (beam search / teacher-forced / greedy) are
inlined exactly as in the source, and the collected `decode_outputs`
are stacked and argmaxed at the end. -/
def Speller.forward (s : Speller) (impl : BeamImpl β) (inputs : List (List Tok))
    (listener_outputs : Tensor3) (teacher_forcing_ratio : ℚ) (use_beam_search : Bool)
    (rand : ℕ → ℚ) : Except String (List (List ℕ) × Tensor3) :=
  let batch_size := inputs.length
  let max_length := (inputs.headD []).length - 1
  let use_teacher_forcing := rand 0 < teacher_forcing_ratio
  let h_state := s.initState batch_size
  let decoded : Except String (List Mat) :=
    if use_beam_search then
      let h1 := h_state.inflate1 s.k
      let bb := listener_outputs.length
      let listener' := inflateListener listener_outputs s.k bb
      let beams0 := (List.range bb).map (fun _ => impl.init s.k s.sos_id s.eos_id)
      let fin := beamRun s impl listener' max_length (beams0, h1)
      let probs := fin.1.map (beamTopProb s impl max_length)
      .ok (transpose01 ([] : Vec) probs)
    else if use_teacher_forcing then
      match pyView2 (maskedInputs inputs s.eos_id) batch_size with
      | none => .error "RuntimeError: invalid view of masked inputs"
      | some inputs' =>
        let pr := s.forward_step inputs' h_state listener_outputs
        (List.range pr.1.size1).mapM (fun di => pr.1.sliceMid di)
    else
      let iv0 := inputs.map (fun r => [r.headD 0])
      .ok (gRun s listener_outputs max_length ([], iv0, h_state)).1
  decoded >>= finalize

/-- Pad a probability sequence to exactly `len` step entries (a beam
implementation's `fill_empty_sequence` with this shape contract). -/
def padTo (len : ℕ) (p : List Vec) : List Vec :=
  p.take len ++ List.replicate (len - p.length) []

/-- A trace-recording beam implementation: its state keeps the beam
width, the start symbol and the list of score slices received through
`advance`, so the number of `advance` calls per beam is observable. -/
def traceImpl : BeamImpl (ℕ × Tok × List Mat) where
  init := fun k sos _ => (k, sos, [])
  current_predictions := fun st => List.replicate st.1 st.2.1
  advance := fun st m => (st.1, st.2.1, st.2.2 ++ [m])
  sort_finished := fun _ _ => [(0, 0)]
  get_hyp := fun _ _ _ => ([], 0, [])
  fill_empty_sequence := fun p n => padTo n p

/-- A tiny concrete `Speller` instance (identity recurrent cell and
attention, one-dimensional hidden state, two classes) used to evaluate
the model on closed inputs. -/
def sTriv : Speller where
  n_class := 2
  max_length := 10
  hidden_dim := 1
  sos_id := 1
  eos_id := 0
  n_layers := 1
  k := 1
  rnnType := "gru"
  embeddingF := fun t => [(t : ℤ)]
  dropoutF := id
  rnnF := fun x h => (x, h)
  attentionF := fun o _ => o
  log_softmaxF := id
  fcW := [[1], [0]]
  fcB := [0, 0]

/-- Digit-string to number (helper for the Python `int()` model);
`none` when the character list is empty or holds a non-digit. -/
def digitsToNat (cs : List Char) : Option ℕ :=
  if cs = [] then none
  else cs.foldl
    (fun acc c => acc.bind (fun a => if c.isDigit then some (a * 10 + (c.toNat - 48)) else none))
    (some 0)

/-- Python `int(s)` on decimal literals: `none` models the
`ValueError` raise. -/
def pyInt (s : String) : Option ℤ :=
  match s.data with
  | '-' :: cs => (digitsToNat cs).map (fun n => -(n : ℤ))
  | cs => (digitsToNat cs).map (fun n => (n : ℤ))

/-- Python `str.split(sep)` for a one-character separator, on the
character list: always at least one (possibly empty) piece. -/
def splitChar (sep : Char) : List Char → List (List Char)
  | [] => [[]]
  | c :: cs =>
    let r := splitChar sep cs
    if c = sep then [] :: r else (c :: r.headD []) :: r.tail

/-- Python `str.split(sep)` for a one-character separator. -/
def pySplit (s : String) (sep : Char) : List String :=
  (splitChar sep s.data).map String.mk

/-- Number of `eos` occurrences in one row. -/
def eosCount (row : List Tok) (eos : Tok) : ℕ :=
  (row.filter (fun t => t = eos)).length

/-- The clean recurrence underlying the greedy loop: the pair
(input tokens fed into step `t`, hidden state entering step `t`).
Step `t + 1` consumes the argmax (`topk(1)[1]`) of step `t`'s scores
and the hidden state returned by step `t`'s `forward_step`. -/
def gStateAt (s : Speller) (lst : Tensor3) (iv0 : List (List Tok)) (h0 : HState) :
    ℕ → List (List Tok) × HState
  | 0 => (iv0, h0)
  | t + 1 =>
    let st := gStateAt s lst iv0 h0 t
    let pr := s.forward_step st.1 st.2 lst
    let out := (squeezeDim1 (pr.1.view3grp ((st.1.headD []).length))).toRows
    (topkIdx1 out, pr.2)

/-- The step-`t` output of the clean greedy recurrence. -/
def gOutAt (s : Speller) (lst : Tensor3) (iv0 : List (List Tok)) (h0 : HState) (t : ℕ) : Mat :=
  let st := gStateAt s lst iv0 h0 t
  (squeezeDim1 ((s.forward_step st.1 st.2 lst).1.view3grp ((st.1.headD []).length))).toRows

/-- The list of beams after the full beam-search loop of
`Speller.forward`, with the initial state exactly as `forward` builds
it (hidden state from `inputs.size(0)`, beam count and listener
inflation from `listener_outputs.size(0)`). -/
def beamFinal (s : Speller) (impl : BeamImpl β) (inputs : List (List Tok))
    (listener_outputs : Tensor3) : List β :=
  (beamRun s impl (inflateListener listener_outputs s.k listener_outputs.length)
    ((inputs.headD []).length - 1)
    ((List.range listener_outputs.length).map (fun _ => impl.init s.k s.sos_id s.eos_id),
     (s.initState inputs.length).inflate1 s.k)).1

/-! ## src/utils/load.py -/

/-- The loop body state of `load_label`: the two dictionaries, as
last-write-wins finite maps.  A row whose id field does not parse as an
integer makes `int(row[0])` raise, so the build is partial. -/
def buildDicts : List (String × String) → (String → Option String) → (ℤ → Option String) →
    Option ((String → Option String) × (ℤ → Option String))
  | [], c, i => some (c, i)
  | r :: rs, c, i =>
    match pyInt r.1 with
    | none => none
    | some n =>
      buildDicts rs (fun q => if q = r.2 then some r.1 else c q)
        (fun m => if m = n then some r.2 else i m)

/-- `load_label` (src/utils/load.py lines 47-68) over the parsed CSV
rows, each row abstracted to its first two fields `(row[0], row[1])`:
skip the header row, then set `char2id[row[1]] = row[0]` (id kept as a
string) and `id2char[int(row[0])] = row[1]` for every remaining row. -/
def load_label (rows : List (String × String)) :
    Option ((String → Option String) × (ℤ → Option String)) :=
  buildDicts (rows.drop 1) (fun _ => none) (fun _ => none)

/-- Python `dict` assignment on an association list: overwrite the
existing entry for the key, else append a new entry. -/
def pyInsert (d : List (String × String)) (k v : String) : List (String × String) :=
  if d.any (fun kv => kv.1 = k) then d.map (fun kv => if kv.1 = k then (k, v) else kv)
  else d ++ [(k, v)]

/-- `label_txt.split('/')[-1].split('.')[0].split('_')[-1]`: the part
of the basename before its first `'.'`, after the last `'_'` of that
part. -/
def extractNum (path : String) : String :=
  let base := (pySplit path '/').getLastD ""
  let stem := (pySplit base '.').headD ""
  (pySplit stem '_').getLastD ""

/-- The key `'KaiSpeech_label_%s' % file_num` used by `load_targets`. -/
def targetKey (path : String) : String :=
  "KaiSpeech_label_" ++ extractNum path

/-- `load_targets` (src/utils/load.py lines 10-28).  The filesystem is
abstracted as `readline : path → first line`; the result is the built
dictionary paired with the dictionary handed to `save_pickle`, which is
the same object. -/
def load_targets (readline : String → String) (label_paths : List String) :
    List (String × String) × List (String × String) :=
  let d := label_paths.foldl (fun d p => pyInsert d (targetKey p) (readline p)) []
  (d, d)

/-! ## src/package/config.py -/

/-- A Python attribute value of the kinds `Config` stores. -/
inductive PyVal where
  | pb (b : Bool)
  | pi (n : ℕ)
  | pq (q : ℚ)
  | ps (o : Option String)
deriving DecidableEq

/-- The 27 constructor arguments of `Config.__init__`, with the source
defaults. -/
structure ConfigArgs where
  use_bidirectional : Bool := true
  use_label_smooth : Bool := true
  input_reverse : Bool := true
  use_augment : Bool := true
  use_pickle : Bool := false
  use_cuda : Bool := true
  augment_ratio : ℚ := 1
  hidden_dim : ℕ := 256
  dropout : ℚ := 1 / 2
  listener_layer_size : ℕ := 5
  speller_layer_size : ℕ := 3
  n_head : ℕ := 12
  batch_size : ℕ := 32
  worker_num : ℕ := 1
  max_epochs : ℕ := 40
  use_multistep_lr : Bool := false
  init_lr : ℚ := 1 / 10000
  high_plateau_lr : ℚ := 3 / 10000
  low_plateau_lr : ℚ := 1 / 100000
  teacher_forcing : ℚ := 9 / 10
  seed : ℕ := 1
  max_len : ℕ := 151
  load_model : Bool := false
  model_path : Option String := none
  sr : ℕ := 16000
  window_size : ℕ := 20
  stride : ℕ := 10

/-- One Python attribute assignment `self.k = v` on the attribute
dictionary of the instance. -/
def setAttr (d : String → Option PyVal) (k : String) (v : PyVal) : String → Option PyVal :=
  fun q => if q = k then some v else d q

/-- The attribute dictionary produced by `Config.__init__`
(src/package/config.py lines 61-88): every constructor argument is
stored under its own name, except that `high_plateau_lr` and
`low_plateau_lr` are only stored when `use_multistep_lr` is true. -/
def config_init (a : ConfigArgs) : String → Option PyVal :=
  let d : String → Option PyVal := fun _ => none
  let d := setAttr d "use_bidirectional" (.pb a.use_bidirectional)
  let d := setAttr d "use_label_smooth" (.pb a.use_label_smooth)
  let d := setAttr d "input_reverse" (.pb a.input_reverse)
  let d := setAttr d "use_augment" (.pb a.use_augment)
  let d := setAttr d "use_pickle" (.pb a.use_pickle)
  let d := setAttr d "use_cuda" (.pb a.use_cuda)
  let d := setAttr d "augment_ratio" (.pq a.augment_ratio)
  let d := setAttr d "hidden_dim" (.pi a.hidden_dim)
  let d := setAttr d "dropout" (.pq a.dropout)
  let d := setAttr d "listener_layer_size" (.pi a.listener_layer_size)
  let d := setAttr d "speller_layer_size" (.pi a.speller_layer_size)
  let d := setAttr d "batch_size" (.pi a.batch_size)
  let d := setAttr d "worker_num" (.pi a.worker_num)
  let d := setAttr d "max_epochs" (.pi a.max_epochs)
  let d := setAttr d "n_head" (.pi a.n_head)
  let d := setAttr d "use_multistep_lr" (.pb a.use_multistep_lr)
  let d := setAttr d "init_lr" (.pq a.init_lr)
  let d :=
    if a.use_multistep_lr then
      setAttr (setAttr d "high_plateau_lr" (.pq a.high_plateau_lr))
        "low_plateau_lr" (.pq a.low_plateau_lr)
    else d
  let d := setAttr d "teacher_forcing" (.pq a.teacher_forcing)
  let d := setAttr d "seed" (.pi a.seed)
  let d := setAttr d "max_len" (.pi a.max_len)
  let d := setAttr d "sr" (.pi a.sr)
  let d := setAttr d "window_size" (.pi a.window_size)
  let d := setAttr d "stride" (.pi a.stride)
  let d := setAttr d "load_model" (.pb a.load_model)
  let d := setAttr d "model_path" (.ps a.model_path)
  d

/-- The names of the 27 constructor arguments of `Config.__init__`
(the only attributes the constructor can create). -/
def configKeys : List String :=
  ["use_bidirectional", "use_label_smooth", "input_reverse", "use_augment", "use_pickle",
   "use_cuda", "augment_ratio", "hidden_dim", "dropout", "listener_layer_size",
   "speller_layer_size", "n_head", "batch_size", "worker_num", "max_epochs",
   "use_multistep_lr", "init_lr", "high_plateau_lr", "low_plateau_lr", "teacher_forcing",
   "seed", "max_len", "load_model", "model_path", "sr", "window_size", "stride"]

/-- Attribute access `self.k`: an absent attribute raises
`AttributeError`. -/
def getAttr (d : String → Option PyVal) (k : String) : Except String PyVal :=
  match d k with
  | some v => .ok v
  | none => .error ("AttributeError: " ++ k)

/-- Python truthiness of the stored value kinds. -/
def pyTruthy : PyVal → Bool
  | .pb b => b
  | .pi n => n ≠ 0
  | .pq q => q ≠ 0
  | .ps o => o.isSome

/-- The attribute names logged before the `use_multistep_lr` check in
`Config.print_log`. -/
def printLogPre : List String :=
  ["use_bidirectional", "use_pickle", "use_augment", "augment_ratio", "input_reverse",
   "hidden_dim", "listener_layer_size", "speller_layer_size", "n_head", "dropout",
   "batch_size", "worker_num", "max_epochs", "init_lr"]

/-- The attribute names logged after the `use_multistep_lr` check. -/
def printLogPost : List String :=
  ["teacher_forcing", "seed", "max_len", "use_cuda", "sr", "window_size", "stride"]

/-- `Config.print_log` (src/package/config.py lines 91-116), abstracted
to the sequence of attribute names it logs; each `logger.info` line
accesses the corresponding attribute, and the two plateau learning
rates are accessed and logged only under `if self.use_multistep_lr`. -/
def print_log (d : String → Option PyVal) : Except String (List String) := do
  let _ ← printLogPre.mapM (getAttr d)
  let ms ← getAttr d "use_multistep_lr"
  let mid ←
    if pyTruthy ms then do
      let _ ← getAttr d "high_plateau_lr"
      let _ ← getAttr d "low_plateau_lr"
      pure ["high_plateau_lr", "low_plateau_lr"]
    else pure ([] : List String)
  let _ ← printLogPost.mapM (getAttr d)
  pure (printLogPre ++ mid ++ printLogPost)

/-- Equality of `Except` values is decidable when both component types
have decidable equality (used to evaluate the model on closed inputs). -/
instance {ε α : Type} [DecidableEq ε] [DecidableEq α] : DecidableEq (Except ε α) := fun x y =>
  match x, y with
  | .ok a, .ok b =>
    if h : a = b then isTrue (by rw [h]) else isFalse (fun hh => by cases hh; exact h rfl)
  | .error a, .error b =>
    if h : a = b then isTrue (by rw [h]) else isFalse (fun hh => by cases hh; exact h rfl)
  | .ok _, .error _ => isFalse (fun hh => by cases hh)
  | .error _, .ok _ => isFalse (fun hh => by cases hh)

/-! ## Theorems -/

/-- `forward` with `use_beam_search = false` is the teacher-forcing
ite over the single random draw, followed by the shared stack/argmax
tail (shared helper for the mode-selection claims). -/
theorem forward_nonbeam (s : Speller) (impl : BeamImpl β) (inputs : List (List Tok))
    (lst : Tensor3) (ratio : ℚ) (rand : ℕ → ℚ) :
    s.forward impl inputs lst ratio false rand =
      (if rand 0 < ratio then tfModeD s inputs lst (s.initState inputs.length)
       else greedyModeD s inputs lst (s.initState inputs.length)) >>= finalize := rfl

/-- C1 (counterexample): with `use_beam_search = false` and
`teacher_forcing_ratio = 0`, the call succeeds while the teacher-forced
branch's computation on the same arguments errors, so the call did not
decode in the teacher-forced mode: a third (greedy) mode exists. -/
theorem forward_greedy_is_third_mode :
    (sTriv.forward traceImpl [[1, 2]] [[[1], [1]]] 0 false (fun _ => 0)).isOk = true
    ∧ ((tfModeD sTriv [[1, 2]] [[[1], [1]]] (sTriv.initState 1) >>= finalize)).isOk = false := by
  exact ⟨by decide, by decide⟩

/-- C1 (amended): every `Speller.forward` call decodes in exactly one
of three modes: beam search when `use_beam_search` is true, otherwise
teacher-forced when the single random draw is below
`teacher_forcing_ratio`, otherwise greedy. -/
theorem forward_mode_selection (s : Speller) (impl : BeamImpl β) (inputs : List (List Tok))
    (lst : Tensor3) (ratio : ℚ) (use_beam_search : Bool) (rand : ℕ → ℚ) :
    s.forward impl inputs lst ratio use_beam_search rand =
      (if use_beam_search then beamModeD s impl inputs lst (s.initState inputs.length)
       else if rand 0 < ratio then tfModeD s inputs lst (s.initState inputs.length)
       else greedyModeD s inputs lst (s.initState inputs.length)) >>= finalize := by
  cases use_beam_search <;> rfl

/-- C3 (code bug): a teacher-forced call crashes instead of returning
`(y_hats, logits)`: `forward_step` returns a rank-2 tensor, and the
teacher-forced branch then slices it as `predicted_softmax[:, di, :]`,
three indices into two dimensions. -/
theorem forward_tf_index_error :
    sTriv.forward traceImpl [[1, 2]] [[[1], [1]]] 1 false (fun _ => 0)
      = Except.error "IndexError: too many indices for tensor of dimension 2" := by decide

/-- C5: in non-beam mode the teacher-forcing decision depends only on
the first random draw (it is made once per call, before the loop), the
whole call then runs one single mode, every call with ratio at least 1
is teacher-forced, and no call with ratio at most 0 is. -/
theorem forward_single_draw (s : Speller) (impl : BeamImpl β) (inputs : List (List Tok))
    (lst : Tensor3) (ratio : ℚ) (rand : ℕ → ℚ)
    (h0 : 0 ≤ rand 0) (h1 : rand 0 < 1) :
    (∀ rand' : ℕ → ℚ, rand' 0 = rand 0 →
      s.forward impl inputs lst ratio false rand' = s.forward impl inputs lst ratio false rand)
    ∧ (1 ≤ ratio →
      s.forward impl inputs lst ratio false rand
        = tfModeD s inputs lst (s.initState inputs.length) >>= finalize)
    ∧ (ratio ≤ 0 →
      s.forward impl inputs lst ratio false rand
        = greedyModeD s inputs lst (s.initState inputs.length) >>= finalize) := by
  refine ⟨?_, ?_, ?_⟩
  · intro rand' hr
    simp only [Speller.forward, hr]
  · intro hge
    rw [forward_nonbeam, if_pos (lt_of_lt_of_le h1 hge)]
  · intro hle
    rw [forward_nonbeam, if_neg (fun hlt => absurd (lt_of_lt_of_le hlt hle) (not_lt.mpr h0))]

/-- C5 (witness): at ratio 1 with draw 1/2 the call is teacher-forced. -/
theorem forward_single_draw_witness :
    (0 : ℚ) ≤ 0 ∧ (0 : ℚ) < 1
    ∧ sTriv.forward traceImpl [[1, 2]] [[[1], [1]]] 1 false (fun _ => 0)
        = tfModeD sTriv [[1, 2]] [[[1], [1]]] (sTriv.initState 1) >>= finalize :=
  ⟨le_refl 0, by norm_num,
    (forward_single_draw sTriv traceImpl [[1, 2]] [[[1], [1]]] 1 (fun _ => 0)
      (le_refl 0) (by norm_num)).2.1 (le_refl 1)⟩

/-- C10 (counterexample): `rnn_type = "LSTM"` passes the assertion
(its lowering is a supported key) yet construction still fails, with a
`KeyError` from `supported_rnns[rnn_type]`: the constructor does not
accept `rnn_type` case-insensitively. -/
theorem speller_init_LSTM_keyError :
    speller_init "LSTM" = Except.error InitError.keyError
    ∧ pyLower "LSTM" ∈ supported_rnns := by
  exact ⟨by decide, by decide⟩

/-- A member of the `supported_rnns` key list is already lowercase. -/
theorem supported_key_pyLower (rt : String) (h : rt ∈ supported_rnns) :
    pyLower rt = rt := by
  have hm : rt = "lstm" ∨ rt = "gru" ∨ rt = "rnn" := by
    simpa [supported_rnns] using h
  rcases hm with h1 | h1 | h1 <;> subst h1 <;> decide

/-- C10 (amended): the constructor raises `AssertionError` iff
`rnn_type.lower()` is not a supported key, but it succeeds iff
`rnn_type` itself is exactly one of `'lstm'`, `'gru'`, `'rnn'` (a
case variant instead raises `KeyError`); on success the initial hidden
state is all zeros of shape `(n_layers, batch_size, hidden_dim)`,
an `(h, c)` pair exactly when the cell is an LSTM. -/
theorem speller_init_spec (rt : String) (nl b h : ℕ) :
    (speller_init rt = Except.error InitError.assertError
      ↔ pyLower rt ∉ supported_rnns)
    ∧ ((∃ c, speller_init rt = Except.ok c) ↔ rt ∈ supported_rnns)
    ∧ (∀ c, speller_init rt = Except.ok c → c = rt)
    ∧ (∀ c, init_state c nl b h
        = if c = "lstm" then HState.pair (zeros3 nl b h) (zeros3 nl b h)
          else HState.single (zeros3 nl b h))
    ∧ (∀ c, (init_state c nl b h).isPair = (c == "lstm")) := by
  have hBA : rt ∈ supported_rnns → pyLower rt ∈ supported_rnns := fun hb => by
    rw [supported_key_pyLower rt hb]; exact hb
  refine ⟨?_, ?_, ?_, fun c => rfl, fun c => ?_⟩
  · by_cases hA : pyLower rt ∈ supported_rnns <;>
      by_cases hB : rt ∈ supported_rnns <;> simp [speller_init, hA, hB]
  · by_cases hA : pyLower rt ∈ supported_rnns <;>
      by_cases hB : rt ∈ supported_rnns <;> simp [speller_init, hA, hB]
    exact absurd (hBA hB) hA
  · intro c hc
    by_cases hA : pyLower rt ∈ supported_rnns <;>
      by_cases hB : rt ∈ supported_rnns <;> simp [speller_init, hA, hB] at hc
    exact hc.symm
  · by_cases hc : c = "lstm" <;> simp [init_state, HState.isPair, hc]

/-- Splitting a row's length into its non-`eos` and `eos` parts. -/
theorem filter_ne_add_eosCount (row : List Tok) (eos : Tok) :
    (row.filter (fun t => t ≠ eos)).length + eosCount row eos = row.length := by
  induction row with
  | nil => rfl
  | cons a r ih =>
    by_cases ha : a = eos <;> simp [eosCount, List.filter_cons, ha] at * <;> omega

/-- The masked input keeps exactly the non-`eos` elements: its length
plus the total `eos` count is the full element count. -/
theorem maskedInputs_length (inputs : List (List Tok)) (eos : Tok) (L : ℕ)
    (hrect : ∀ r ∈ inputs, r.length = L) :
    (maskedInputs inputs eos).length + (inputs.map (fun r => eosCount r eos)).sum
      = inputs.length * L := by
  induction inputs with
  | nil => simp [maskedInputs]
  | cons r rs ih =>
    have hr : r.length = L := hrect r (List.mem_cons_self r rs)
    have ih' := ih (fun q hq => hrect q (List.mem_cons_of_mem r hq))
    have hflt := filter_ne_add_eosCount r eos
    have hsm : (rs.length + 1) * L = rs.length * L + L := Nat.succ_mul _ _
    simp only [maskedInputs, List.flatten_cons, List.filter_append, List.length_append,
      List.map_cons, List.sum_cons, List.length_cons, hsm] at *
    omega

/-- When `pyView2` succeeds. -/
theorem pyView2_isSome (l : List α) (b : ℕ) :
    (pyView2 l b).isSome = true ↔ l.length ≠ 0 ∧ b ≠ 0 ∧ l.length % b = 0 := by
  unfold pyView2
  split <;> simp_all

/-- Summing a constant per-row `eos` count. -/
theorem map_eosCount_const (inputs : List (List Tok)) (eos : Tok) (e : ℕ)
    (he : ∀ r ∈ inputs, eosCount r eos = e) :
    (inputs.map (fun r => eosCount r eos)).sum = inputs.length * e := by
  induction inputs with
  | nil => simp
  | cons r rs ih =>
    have h1 := he r (List.mem_cons_self r rs)
    have ih' := ih (fun q hq => he q (List.mem_cons_of_mem r hq))
    have hsm : (rs.length + 1) * e = rs.length * e + e := Nat.succ_mul _ _
    simp only [List.map_cons, List.sum_cons, List.length_cons, h1, ih', hsm]
    omega

/-- C6 (counterexample): the eos-stripping reshape succeeds on a batch
whose rows hold different numbers of `eos_id` tokens (0 in the first
row, 2 in the second; the total, 2, is divisible by `batch_size = 2`),
so the error branch is not exactly characterized by equal counts. -/
theorem masked_view_unequal_eos :
    (pyView2 (maskedInputs [[1, 2, 3], [0, 0, 4]] 0) 2).isSome = true
    ∧ ¬ eosCount [1, 2, 3] 0 = eosCount [0, 0, 4] 0 :=
  ⟨by decide, by decide⟩

/-- C6 (amended): the teacher-forced branch drops every `eos_id`
occurrence and reshapes to `batch_size` rows; for a rectangular batch
the reshape succeeds iff some non-eos element remains and `batch_size`
divides the total `eos_id` count.  Equal per-row counts (below the row
length) are sufficient, but not necessary, for success. -/
theorem masked_view_spec (inputs : List (List Tok)) (eos : Tok) (L : ℕ)
    (hb : 0 < inputs.length) (hrect : ∀ r ∈ inputs, r.length = L) :
    ((pyView2 (maskedInputs inputs eos) inputs.length).isSome = true
      ↔ (maskedInputs inputs eos).length ≠ 0
        ∧ inputs.length ∣ (inputs.map (fun r => eosCount r eos)).sum)
    ∧ (∀ e, (∀ r ∈ inputs, eosCount r eos = e) → e < L →
        (pyView2 (maskedInputs inputs eos) inputs.length).isSome = true) := by
  have key := maskedInputs_length inputs eos L hrect
  have hPd : inputs.length ∣ inputs.length * L := dvd_mul_right _ _
  constructor
  · rw [pyView2_isSome]
    constructor
    · rintro ⟨h1, _, h3⟩
      refine ⟨h1, ?_⟩
      have hd : inputs.length ∣ (maskedInputs inputs eos).length :=
        Nat.dvd_of_mod_eq_zero h3
      have hE : (inputs.map (fun r => eosCount r eos)).sum
          = inputs.length * L - (maskedInputs inputs eos).length := by omega
      rw [hE]
      exact Nat.dvd_sub' hPd hd
    · rintro ⟨h1, hdE⟩
      have hM : inputs.length ∣ (maskedInputs inputs eos).length := by
        have hM' : (maskedInputs inputs eos).length
            = inputs.length * L - (inputs.map (fun r => eosCount r eos)).sum := by omega
        rw [hM']
        exact Nat.dvd_sub' hPd hdE
      exact ⟨h1, by omega, Nat.eq_zero_of_dvd_of_lt hM |> fun _ => Nat.mod_eq_zero_of_dvd hM⟩
  · intro e he hlt
    have hE := map_eosCount_const inputs eos e he
    obtain ⟨d, hd⟩ := Nat.exists_eq_add_of_lt hlt
    have hmul : inputs.length * L = inputs.length * e + inputs.length * (d + 1) := by
      rw [hd]; ring
    have hM : (maskedInputs inputs eos).length = inputs.length * (d + 1) := by omega
    rw [pyView2_isSome]
    refine ⟨?_, by omega, ?_⟩
    · rw [hM]
      exact Nat.mul_ne_zero (by omega) (by omega)
    · rw [hM]
      exact Nat.mul_mod_right _ _

/-- Every row consumed by a successful `buildDicts` run has a parsable
id field. -/
theorem buildDicts_parses (rs : List (String × String)) (c : String → Option String)
    (i : ℤ → Option String) (p : (String → Option String) × (ℤ → Option String))
    (h : buildDicts rs c i = some p) : ∀ r ∈ rs, (pyInt r.1).isSome := by
  induction rs generalizing c i with
  | nil => simp
  | cons r0 rs ih =>
    intro r hr
    unfold buildDicts at h
    cases hn : pyInt r0.1 with
    | none => rw [hn] at h; cases h
    | some n =>
      rw [hn] at h
      rcases List.mem_cons.mp hr with h1 | h1
      · subst h1; simp [hn]
      · exact ih _ _ h r h1

/-- `char2id` after the build: last-write-wins over the rows, searched
from the back. -/
theorem buildDicts_char (rs : List (String × String)) (c : String → Option String)
    (i : ℤ → Option String) (c' : String → Option String) (i' : ℤ → Option String)
    (h : buildDicts rs c i = some (c', i')) (ch : String) :
    c' ch = (rs.reverse.find? (fun r => r.2 == ch)).elim (c ch) (fun r => some r.1) := by
  induction rs generalizing c i with
  | nil =>
    simp only [buildDicts, Option.some.injEq, Prod.mk.injEq] at h
    obtain ⟨h1, h2⟩ := h
    subst h1
    simp
  | cons r0 rs ih =>
    cases hn : pyInt r0.1 with
    | none => unfold buildDicts at h; rw [hn] at h; cases h
    | some n =>
      unfold buildDicts at h
      rw [hn] at h
      have ih' := ih _ _ h
      rw [List.reverse_cons, List.find?_append]
      cases hf : rs.reverse.find? (fun r => r.2 == ch) with
      | some r1 => rw [hf] at ih'; simpa using ih'
      | none =>
        rw [hf] at ih'
        simp only [Option.elim_none] at ih'
        by_cases hpr : r0.2 = ch
        · subst hpr
          rw [ih', if_pos rfl]
          simp [List.find?]
        · rw [ih', if_neg (fun he : ch = r0.2 => hpr he.symm)]
          have hb : (r0.2 == ch) = false := beq_eq_false_iff_ne.mpr hpr
          simp [List.find?, hb]

/-- `id2char` after the build: last-write-wins over the parsed ids,
searched from the back. -/
theorem buildDicts_int (rs : List (String × String)) (c : String → Option String)
    (i : ℤ → Option String) (c' : String → Option String) (i' : ℤ → Option String)
    (h : buildDicts rs c i = some (c', i')) (m : ℤ) :
    i' m = (rs.reverse.find? (fun r => pyInt r.1 == some m)).elim (i m) (fun r => some r.2) := by
  induction rs generalizing c i with
  | nil =>
    simp only [buildDicts, Option.some.injEq, Prod.mk.injEq] at h
    obtain ⟨h1, h2⟩ := h
    subst h2
    simp
  | cons r0 rs ih =>
    cases hn : pyInt r0.1 with
    | none => unfold buildDicts at h; rw [hn] at h; cases h
    | some n =>
      unfold buildDicts at h
      rw [hn] at h
      have ih' := ih _ _ h
      rw [List.reverse_cons, List.find?_append]
      cases hf : rs.reverse.find? (fun r => pyInt r.1 == some m) with
      | some r1 => rw [hf] at ih'; simpa using ih'
      | none =>
        rw [hf] at ih'
        simp only [Option.elim_none] at ih'
        by_cases hpr : n = m
        · subst hpr
          rw [ih', if_pos rfl]
          simp [List.find?, hn]
        · rw [ih', if_neg (fun he : m = n => hpr he.symm)]
          have hb : (pyInt r0.1 == some m) = false := by
            rw [hn]
            exact beq_eq_false_iff_ne.mpr (fun he => hpr (Option.some.inj he))
          simp [List.find?, hb]

/-- C7: `load_label` skips the header row and builds `char2id` mapping
characters to id strings and `id2char` keyed by the parsed integer id;
when the parsed ids are pairwise distinct, the round trip
`id2char[int(char2id[ch])] = ch` holds for every stored character. -/
theorem load_label_round_trip (rows : List (String × String))
    (c2i : String → Option String) (i2c : ℤ → Option String) (ch s : String)
    (hload : load_label rows = some (c2i, i2c))
    (hdist : (rows.drop 1).Pairwise (fun a b => pyInt a.1 ≠ pyInt b.1))
    (hc : c2i ch = some s) :
    ∃ n : ℤ, pyInt s = some n ∧ i2c n = some ch := by
  unfold load_label at hload
  have hchar := buildDicts_char _ _ _ _ _ hload ch
  rw [hc] at hchar
  cases hf : (rows.drop 1).reverse.find? (fun r => r.2 == ch) with
  | none => rw [hf] at hchar; cases hchar
  | some r =>
    rw [hf] at hchar
    have hs : s = r.1 := by simpa using hchar
    have hr_mem : r ∈ rows.drop 1 := List.mem_reverse.mp (List.mem_of_find?_eq_some hf)
    have hr_ch : r.2 = ch := by simpa using List.find?_some hf
    have hparse : (pyInt r.1).isSome := buildDicts_parses _ _ _ _ hload r hr_mem
    obtain ⟨n, hn⟩ := Option.isSome_iff_exists.mp hparse
    refine ⟨n, by rw [hs]; exact hn, ?_⟩
    have hint := buildDicts_int _ _ _ _ _ hload n
    have hex : ∃ r' ∈ (rows.drop 1).reverse, (pyInt r'.1 == some n) = true :=
      ⟨r, List.mem_reverse.mpr hr_mem, by simp [hn]⟩
    obtain ⟨r', hr'⟩ := Option.isSome_iff_exists.mp (List.find?_isSome.mpr hex)
    rw [hr'] at hint
    have hr'_mem : r' ∈ rows.drop 1 := List.mem_reverse.mp (List.mem_of_find?_eq_some hr')
    have hr'_pred : pyInt r'.1 = some n := by simpa using List.find?_some hr'
    have hrr : r' = r := by
      by_contra hne
      have hsym : Symmetric (fun a b : String × String => pyInt a.1 ≠ pyInt b.1) :=
        fun a b hab he => hab he.symm
      exact List.Pairwise.forall hsym hdist hr'_mem hr_mem hne (by rw [hr'_pred, hn])
    rw [hrr] at hint
    rw [hint]
    simp [hr_ch]

/-- C7 (witness): the round trip on a concrete two-row label table. -/
theorem load_label_round_trip_witness :
    ∃ n : ℤ, pyInt "1" = some n
      ∧ (fun m : ℤ => if m = 2 then some "b" else if m = 1 then some "a" else none) n
          = some "a" :=
  load_label_round_trip [("id", "x"), ("1", "a"), ("2", "b")]
    (fun q => if q = "b" then some "2" else if q = "a" then some "1" else none)
    (fun m => if m = 2 then some "b" else if m = 1 then some "a" else none)
    "a" "1" rfl (by decide) (by decide)

/-- Overwriting the entries keyed `k0` leaves lookups of other keys
unchanged. -/
theorem lookup_map_overwrite_ne (d : List (String × String)) (k0 v k : String) (hk : k ≠ k0) :
    List.lookup k (d.map (fun kv => if kv.1 = k0 then (k0, v) else kv)) = List.lookup k d := by
  have hb : (k == k0) = false := beq_eq_false_iff_ne.mpr hk
  induction d with
  | nil => rfl
  | cons kv d ih =>
    simp only [List.map_cons]
    by_cases h1 : kv.1 = k0
    · rw [if_pos h1]
      have hb2 : (k == kv.1) = false := by rw [h1]; exact hb
      simp [List.lookup, hb, hb2, ih]
    · rw [if_neg h1]
      cases hkv : (k == kv.1) <;> simp [List.lookup, hkv, ih]

/-- Overwriting the entries keyed `k0` makes `k0` look up the new
value, provided the key was present. -/
theorem lookup_map_overwrite_eq (d : List (String × String)) (k0 v : String)
    (hany : d.any (fun kv => kv.1 = k0) = true) :
    List.lookup k0 (d.map (fun kv => if kv.1 = k0 then (k0, v) else kv)) = some v := by
  induction d with
  | nil => cases hany
  | cons kv d ih =>
    simp only [List.map_cons]
    by_cases h1 : kv.1 = k0
    · rw [if_pos h1]
      simp [List.lookup]
    · rw [if_neg h1]
      have hany' : d.any (fun kv => kv.1 = k0) = true := by simpa [h1] using hany
      have hb : (k0 == kv.1) = false := beq_eq_false_iff_ne.mpr (fun he => h1 he.symm)
      simp [List.lookup, hb, ih hany']

/-- Association-list lookup distributes over append. -/
theorem lookup_append_or (k : String) (l1 l2 : List (String × String)) :
    List.lookup k (l1 ++ l2) = (List.lookup k l1).or (List.lookup k l2) := by
  induction l1 with
  | nil => simp
  | cons kv l1 ih =>
    cases hb : (k == kv.1) <;> simp [List.lookup, hb, ih]

/-- A key reported absent by `any` looks up to `none`. -/
theorem lookup_none_of_not_any (d : List (String × String)) (k0 : String)
    (h : d.any (fun kv => kv.1 = k0) = false) : List.lookup k0 d = none := by
  induction d with
  | nil => rfl
  | cons kv d ih =>
    have h1 : ¬ kv.1 = k0 := by
      intro he
      simp [he] at h
    have h2 : d.any (fun kv => kv.1 = k0) = false := by simpa [h1] using h
    have hb : (k0 == kv.1) = false := beq_eq_false_iff_ne.mpr (fun he => h1 he.symm)
    simp [List.lookup, hb, ih h2]

/-- Python dict assignment, seen through lookup. -/
theorem lookup_pyInsert (d : List (String × String)) (k0 v k : String) :
    List.lookup k (pyInsert d k0 v) = if k = k0 then some v else List.lookup k d := by
  unfold pyInsert
  by_cases hany : d.any (fun kv => kv.1 = k0) = true
  · rw [if_pos hany]
    by_cases hk : k = k0
    · rw [if_pos hk, hk]
      exact lookup_map_overwrite_eq d k0 v hany
    · rw [if_neg hk]
      exact lookup_map_overwrite_ne d k0 v k hk
  · rw [if_neg hany]
    have hanyf : d.any (fun kv => kv.1 = k0) = false := by
      cases hA : d.any (fun kv => kv.1 = k0)
      · rfl
      · exact absurd hA hany
    rw [lookup_append_or]
    by_cases hk : k = k0
    · rw [if_pos hk, hk, lookup_none_of_not_any d k0 hanyf]
      simp [List.lookup]
    · rw [if_neg hk]
      have hb : (k == k0) = false := beq_eq_false_iff_ne.mpr hk
      cases hl : List.lookup k d <;> simp [List.lookup, hb]

/-- Folding Python dict assignments: a key's value comes from the last
item that wrote it. -/
theorem lookup_foldl_pyInsert (paths : List String) (key val : String → String)
    (d : List (String × String)) (k : String) :
    List.lookup k (paths.foldl (fun d p => pyInsert d (key p) (val p)) d)
      = (paths.reverse.find? (fun p => key p == k)).elim
          (List.lookup k d) (fun p => some (val p)) := by
  induction paths generalizing d with
  | nil => simp
  | cons p ps ih =>
    rw [List.foldl_cons, ih, List.reverse_cons, List.find?_append]
    cases hf : ps.reverse.find? (fun q => key q == k) with
    | some q => simp
    | none =>
      by_cases hp : key p = k
      · have hb : (key p == k) = true := beq_iff_eq.mpr hp
        simp [List.find?, hb, lookup_pyInsert, hp.symm]
      · have hb : (key p == k) = false := beq_eq_false_iff_ne.mpr hp
        have hb2 : ¬ k = key p := fun he => hp he.symm
        simp [List.find?, hb, lookup_pyInsert, hb2]

/-- C9 (counterexample): two distinct label paths with the same
trailing number produce the same key, so the returned dictionary has
one entry for two paths: not one entry per label path. -/
theorem load_targets_collision :
    ((load_targets (fun _ => "lbl") ["a/x_1.txt", "b/x_1.txt"]).1).length = 1
    ∧ (["a/x_1.txt", "b/x_1.txt"] : List String).length = 2 :=
  ⟨by decide, rfl⟩

/-- C9 (amended): `load_targets` reads the first line of each file,
keys it by `'KaiSpeech_label_<num>'` where `<num>` is the part of the
basename before its first `'.'` taken after its last `'_'`, and returns
one entry per distinct key, the value being the first line of the last
path producing that key; the pickled dictionary is the returned one. -/
theorem load_targets_spec (readline : String → String) (paths : List String) (p : String)
    (hp : p ∈ paths) :
    (load_targets readline paths).2 = (load_targets readline paths).1
    ∧ ∃ q ∈ paths, targetKey q = targetKey p
        ∧ List.lookup (targetKey p) (load_targets readline paths).1 = some (readline q)
        ∧ paths.reverse.find? (fun r => targetKey r == targetKey p) = some q := by
  refine ⟨rfl, ?_⟩
  have hlk := lookup_foldl_pyInsert paths targetKey readline [] (targetKey p)
  have hex : ∃ r ∈ paths.reverse, (targetKey r == targetKey p) = true :=
    ⟨p, List.mem_reverse.mpr hp, beq_iff_eq.mpr rfl⟩
  obtain ⟨q, hq⟩ := Option.isSome_iff_exists.mp (List.find?_isSome.mpr hex)
  refine ⟨q, List.mem_reverse.mp (List.mem_of_find?_eq_some hq), ?_, ?_, hq⟩
  · have := List.find?_some hq
    simpa using this
  · unfold load_targets
    rw [hlk, hq]
    rfl

/-- C9 (witness): one concrete path, looked up by its key. -/
theorem load_targets_spec_witness :
    (load_targets (fun _ => "L") ["d/y_7.txt"]).2 = (load_targets (fun _ => "L") ["d/y_7.txt"]).1
    ∧ ∃ q ∈ ["d/y_7.txt"], targetKey q = targetKey "d/y_7.txt"
        ∧ List.lookup (targetKey "d/y_7.txt") (load_targets (fun _ => "L") ["d/y_7.txt"]).1
            = some "L"
        ∧ (["d/y_7.txt"] : List String).reverse.find?
            (fun r => targetKey r == targetKey "d/y_7.txt") = some q :=
  load_targets_spec (fun _ => "L") ["d/y_7.txt"] "d/y_7.txt" (by decide)

/-- C6 (witness): a batch of two rows with one eos each reshapes
successfully. -/
theorem masked_view_spec_witness :
    (pyView2 (maskedInputs [[1, 0], [2, 0]] 0) 2).isSome = true :=
  (masked_view_spec [[1, 0], [2, 0]] 0 2 (by decide) (by decide)).2 1 (by decide) (by decide)

set_option maxRecDepth 2048 in
/-- Every attribute `Config.__init__` creates is named by one of its
constructor arguments. -/
theorem config_domain (a : ConfigArgs) (k : String) (v : PyVal)
    (hv : config_init a k = some v) : k ∈ configKeys := by
  by_cases h1 : k = "use_bidirectional"
  · simp [configKeys, h1]
  by_cases h2 : k = "use_label_smooth"
  · simp [configKeys, h2]
  by_cases h3 : k = "input_reverse"
  · simp [configKeys, h3]
  by_cases h4 : k = "use_augment"
  · simp [configKeys, h4]
  by_cases h5 : k = "use_pickle"
  · simp [configKeys, h5]
  by_cases h6 : k = "use_cuda"
  · simp [configKeys, h6]
  by_cases h7 : k = "augment_ratio"
  · simp [configKeys, h7]
  by_cases h8 : k = "hidden_dim"
  · simp [configKeys, h8]
  by_cases h9 : k = "dropout"
  · simp [configKeys, h9]
  by_cases h10 : k = "listener_layer_size"
  · simp [configKeys, h10]
  by_cases h11 : k = "speller_layer_size"
  · simp [configKeys, h11]
  by_cases h12 : k = "n_head"
  · simp [configKeys, h12]
  by_cases h13 : k = "batch_size"
  · simp [configKeys, h13]
  by_cases h14 : k = "worker_num"
  · simp [configKeys, h14]
  by_cases h15 : k = "max_epochs"
  · simp [configKeys, h15]
  by_cases h16 : k = "use_multistep_lr"
  · simp [configKeys, h16]
  by_cases h17 : k = "init_lr"
  · simp [configKeys, h17]
  by_cases h18 : k = "high_plateau_lr"
  · simp [configKeys, h18]
  by_cases h19 : k = "low_plateau_lr"
  · simp [configKeys, h19]
  by_cases h20 : k = "teacher_forcing"
  · simp [configKeys, h20]
  by_cases h21 : k = "seed"
  · simp [configKeys, h21]
  by_cases h22 : k = "max_len"
  · simp [configKeys, h22]
  by_cases h23 : k = "load_model"
  · simp [configKeys, h23]
  by_cases h24 : k = "model_path"
  · simp [configKeys, h24]
  by_cases h25 : k = "sr"
  · simp [configKeys, h25]
  by_cases h26 : k = "window_size"
  · simp [configKeys, h26]
  by_cases h27 : k = "stride"
  · simp [configKeys, h27]
  exfalso
  by_cases hm : a.use_multistep_lr <;>
    simp [config_init, setAttr, hm, h1, h2, h3, h4, h5, h6, h7, h8, h9, h10, h11, h12, h13, h14, h15, h16, h17, h18, h19, h20, h21, h22, h23, h24, h25, h26, h27] at hv

/-- C8: `Config.__init__` stores each constructor argument in the
attribute of the same name, except that the two plateau learning rates
are stored iff `use_multistep_lr`; no other attribute is created, and
`print_log` succeeds, logging the plateau rates iff the flag is set. -/
theorem config_init_spec (a : ConfigArgs) :
    config_init a "use_bidirectional" = some (.pb a.use_bidirectional)
    ∧ config_init a "use_label_smooth" = some (.pb a.use_label_smooth)
    ∧ config_init a "input_reverse" = some (.pb a.input_reverse)
    ∧ config_init a "use_augment" = some (.pb a.use_augment)
    ∧ config_init a "use_pickle" = some (.pb a.use_pickle)
    ∧ config_init a "use_cuda" = some (.pb a.use_cuda)
    ∧ config_init a "augment_ratio" = some (.pq a.augment_ratio)
    ∧ config_init a "hidden_dim" = some (.pi a.hidden_dim)
    ∧ config_init a "dropout" = some (.pq a.dropout)
    ∧ config_init a "listener_layer_size" = some (.pi a.listener_layer_size)
    ∧ config_init a "speller_layer_size" = some (.pi a.speller_layer_size)
    ∧ config_init a "n_head" = some (.pi a.n_head)
    ∧ config_init a "batch_size" = some (.pi a.batch_size)
    ∧ config_init a "worker_num" = some (.pi a.worker_num)
    ∧ config_init a "max_epochs" = some (.pi a.max_epochs)
    ∧ config_init a "use_multistep_lr" = some (.pb a.use_multistep_lr)
    ∧ config_init a "init_lr" = some (.pq a.init_lr)
    ∧ config_init a "teacher_forcing" = some (.pq a.teacher_forcing)
    ∧ config_init a "seed" = some (.pi a.seed)
    ∧ config_init a "max_len" = some (.pi a.max_len)
    ∧ config_init a "load_model" = some (.pb a.load_model)
    ∧ config_init a "model_path" = some (.ps a.model_path)
    ∧ config_init a "sr" = some (.pi a.sr)
    ∧ config_init a "window_size" = some (.pi a.window_size)
    ∧ config_init a "stride" = some (.pi a.stride)
    ∧ config_init a "high_plateau_lr"
        = (if a.use_multistep_lr then some (.pq a.high_plateau_lr) else none)
    ∧ config_init a "low_plateau_lr"
        = (if a.use_multistep_lr then some (.pq a.low_plateau_lr) else none)
    ∧ (∀ k v, config_init a k = some v → k ∈ configKeys)
    ∧ print_log (config_init a)
        = .ok (printLogPre
            ++ (if a.use_multistep_lr then ["high_plateau_lr", "low_plateau_lr"] else [])
            ++ printLogPost) := by
  obtain ⟨u1, u2, u3, u4, u5, u6, u7, u8, u9, u10, u11, u12, u13, u14, u15, flag,
    u17, u18, u19, u20, u21, u22, u23, u24, u25, u26, u27⟩ := a
  cases flag <;>
    exact ⟨rfl, rfl, rfl, rfl, rfl, rfl, rfl, rfl, rfl, rfl, rfl, rfl, rfl, rfl, rfl,
      rfl, rfl, rfl, rfl, rfl, rfl, rfl, rfl, rfl, rfl, rfl, rfl,
      fun k v hv => config_domain _ k v hv, rfl⟩

/-- The mirrored greedy loop equals the clean recurrence: output `t`
comes from `forward_step` on input `t` and state `t`, the next input is
the argmax of output `t` and the next state is the returned one. -/
theorem gRun_eq_ideal (s : Speller) (lst : Tensor3) (iv0 : List (List Tok)) (h0 : HState)
    (n : ℕ) :
    gRun s lst n ([], iv0, h0)
      = ((List.range n).map (gOutAt s lst iv0 h0), gStateAt s lst iv0 h0 n) := by
  induction n with
  | zero => rfl
  | succ n ih =>
    simp only [gRun, ih]
    unfold gStep
    simp only [List.range_succ, List.map_append, List.map_cons, List.map_nil,
      List.getLast?_concat]
    refine Prod.ext rfl (Prod.ext rfl ?_)
    rfl

/-- C2: `forward_step` embeds the inputs (with dropout), runs the
recurrent cell on the embedding and the carried-in hidden state,
attends between the cell output and the listener outputs, and returns
per-row log-softmax scores of width `n_class` together with the cell's
updated hidden state; the greedy loop threads that state and feeds each
step the argmax of the previous step's scores. -/
theorem forward_step_structure (s : Speller) (lst : Tensor3) (iv : List (List Tok))
    (h : HState) (hW : s.fcW.length = s.n_class) (hB : s.fcB.length = s.n_class)
    (hLS : ∀ v, (s.log_softmaxF v).length = v.length) :
    ((s.forward_step iv h lst).1
        = PTensor.rank2 ((s.attentionF (s.rnnF (s.embeddedOf iv) h).1 lst).flatten.map
            (fun v => s.log_softmaxF (s.fcApply v))))
    ∧ (s.forward_step iv h lst).2 = (s.rnnF (s.embeddedOf iv) h).2
    ∧ (∀ row ∈ (s.forward_step iv h lst).1.toRows, row.length = s.n_class)
    ∧ (∀ n iv0 h0, gRun s lst n ([], iv0, h0)
        = ((List.range n).map (gOutAt s lst iv0 h0), gStateAt s lst iv0 h0 n)) := by
  refine ⟨rfl, rfl, ?_, fun n iv0 h0 => gRun_eq_ideal s lst iv0 h0 n⟩
  intro row hrow
  simp only [Speller.forward_step, PTensor.toRows] at hrow
  obtain ⟨v, -, hveq⟩ := List.mem_map.mp hrow
  rw [← hveq, hLS]
  simp [Speller.fcApply, List.length_zipWith, hW, hB]

/-- C2 (witness): the updated hidden state on a concrete instance is
the recurrent cell's. -/
theorem forward_step_structure_witness :
    (sTriv.forward_step [[1]] (HState.single []) [[[1], [1]]]).2
      = (sTriv.rnnF (sTriv.embeddedOf [[1]]) (HState.single [])).2 :=
  (forward_step_structure sTriv [[[1], [1]]] [[1]] (HState.single []) rfl rfl
    (fun _ => rfl)).2.1

/-- Advancing the beams preserves their number. -/
theorem advanceAll_length (impl : BeamImpl β) (bs : List β) (ms : Tensor3) :
    (advanceAll impl bs ms).length = bs.length := by
  induction bs generalizing ms with
  | nil => rfl
  | cons b bs ih => cases ms <;> simp [advanceAll, ih]

/-- The beam-search loop preserves the number of beams. -/
theorem beamRun_length (s : Speller) (impl : BeamImpl β) (l : Tensor3) (n : ℕ)
    (st : List β × HState) : (beamRun s impl l n st).1.length = st.1.length := by
  induction n with
  | zero => rfl
  | succ n ih =>
    simp only [beamRun, beamStep, advanceAll_length]
    exact ih

/-- With the trace implementation, one pass of `advanceAll` grows every
trace by exactly one slice. -/
theorem advanceAll_trace (bs : List (ℕ × Tok × List Mat)) (ms : Tensor3) :
    ∀ st' ∈ advanceAll traceImpl bs ms, ∃ st ∈ bs, st'.2.2.length = st.2.2.length + 1 := by
  induction bs generalizing ms with
  | nil =>
    intro st' h
    simp [advanceAll] at h
  | cons b bs ih =>
    intro st' h
    cases ms with
    | nil =>
      rcases List.mem_cons.mp h with heq | hmem
      · exact ⟨b, List.mem_cons_self b bs, by subst heq; simp [traceImpl]⟩
      · obtain ⟨st, hst, hlen⟩ := ih [] st' hmem
        exact ⟨st, List.mem_cons_of_mem b hst, hlen⟩
    | cons m ms' =>
      rcases List.mem_cons.mp h with heq | hmem
      · exact ⟨b, List.mem_cons_self b bs, by subst heq; simp [traceImpl]⟩
      · obtain ⟨st, hst, hlen⟩ := ih ms' st' hmem
        exact ⟨st, List.mem_cons_of_mem b hst, hlen⟩

/-- With the trace implementation, `n` loop iterations grow every trace
by exactly `n` slices: every beam is advanced once per step. -/
theorem beamRun_trace (s : Speller) (l : Tensor3) (n : ℕ)
    (st : List (ℕ × Tok × List Mat) × HState) :
    ∀ b' ∈ (beamRun s traceImpl l n st).1, ∃ b0 ∈ st.1,
      b'.2.2.length = b0.2.2.length + n := by
  induction n with
  | zero => exact fun b' h => ⟨b', h, rfl⟩
  | succ n ih =>
    intro b' h
    simp only [beamRun, beamStep] at h
    obtain ⟨b1, hb1, hlen1⟩ := advanceAll_trace _ _ b' h
    obtain ⟨b0, hb0, hlen0⟩ := ih b1 hb1
    exact ⟨b0, hb0, by omega⟩

/-- `getD` through `map`, below the length. -/
theorem getD_map_lt (l : List α) (f : α → β) (b : ℕ) (hb : b < l.length) (da : α) (db : β) :
    (l.map f).getD b db = f (l.getD b da) := by
  rw [List.getD_eq_getElem?_getD, List.getD_eq_getElem?_getD, List.getElem?_map,
    List.getElem?_eq_getElem hb]
  rfl

/-- `getD` below the length lands inside the list. -/
theorem getD_mem (l : List α) (b : ℕ) (hb : b < l.length) (d : α) : l.getD b d ∈ l := by
  rw [List.getD_eq_getElem?_getD, List.getElem?_eq_getElem hb]
  exact List.getElem_mem hb

/-- Reading every position back yields the list. -/
theorem map_range_getD (l : List α) (d : α) :
    (List.range l.length).map (fun i => l.getD i d) = l := by
  apply List.ext_getElem
  · simp
  · intro i h1 h2
    simp only [List.getElem_map, List.getElem_range]
    rw [List.getD_eq_getElem?_getD, List.getElem?_eq_getElem h2]
    rfl

/-- The stack-then-transpose round trip of the beam branch: for a
rectangular probability table, row `b` of
`stack(transpose(P), dim=1)` is row `b` of `P`. -/
theorem stack_transpose_getD (P : List (List Vec)) (m : ℕ) (hP : ∀ p ∈ P, p.length = m)
    (b : ℕ) (hb : b < P.length) :
    (stackDim1 (transpose01 ([] : Vec) P)).getD b [] = P.getD b [] := by
  have hhead : (P.headD []).length = m := by
    cases P with
    | nil => simp at hb
    | cons p ps => exact hP p (List.mem_cons_self p ps)
  have hblen : (P.getD b []).length = m := hP _ (getD_mem P b hb [])
  by_cases hm : m = 0
  · subst hm
    have h1 : transpose01 ([] : Vec) P = [] := by
      unfold transpose01
      rw [hhead]
      rfl
    have h2 : P.getD b [] = [] := List.eq_nil_of_length_eq_zero hblen
    rw [h1, h2]
    rfl
  · have hT : transpose01 ([] : Vec) P
        = (List.range m).map (fun i => P.map (fun r => r.getD i [])) := by
      unfold transpose01
      rw [hhead]
    have hThead : ((transpose01 ([] : Vec) P).headD []).length = P.length := by
      rw [hT]
      obtain ⟨m', hm'⟩ : ∃ m', m = m' + 1 := ⟨m - 1, by omega⟩
      rw [hm', List.range_succ_eq_map]
      simp
    have hstack : stackDim1 (transpose01 ([] : Vec) P)
        = (List.range P.length).map
            (fun b' => (transpose01 ([] : Vec) P).map (fun r => r.getD b' [])) := by
      unfold stackDim1
      rw [hThead]
    rw [hstack,
      getD_map_lt (List.range P.length) _ b (by simpa using hb) 0 [],
      List.getD_eq_getElem?_getD, List.getElem?_eq_getElem (by simpa using hb)]
    simp only [List.getElem_range, Option.getD_some]
    rw [hT, List.map_map]
    have hcomp : ∀ i ∈ List.range m,
        ((fun r : Mat => r.getD b []) ∘ fun i => P.map (fun r => r.getD i [])) i
          = (fun i => (P.getD b []).getD i []) i := by
      intro i _
      simp only [Function.comp]
      exact getD_map_lt P _ b hb [] []
    rw [List.map_congr_left hcomp, ← hblen, map_range_getD]

/-- The length contract of the padding helper. -/
theorem padTo_length (n : ℕ) (p : List Vec) : (padTo n p).length = n := by
  simp [padTo]
  omega

/-- `forward` in beam mode, written through the shared tail. -/
theorem forward_beam (s : Speller) (impl : BeamImpl β) (inputs : List (List Tok))
    (lst : Tensor3) (ratio : ℚ) (rand : ℕ → ℚ) :
    s.forward impl inputs lst ratio true rand
      = finalize (transpose01 ([] : Vec)
          ((beamFinal s impl inputs lst).map
            (beamTopProb s impl ((inputs.headD []).length - 1)))) := rfl

/-- C4: in beam mode `forward` runs the beam branch: one beam per batch
item (the listener batch), each advanced exactly once per step for
exactly `inputs.size(1) - 1` steps (the decoding length still comes
from the `inputs` tensor), and, whenever the call returns, row `b` of
the logits is the padded probability sequence of the top-ranked
finished hypothesis of beam `b`. -/
theorem beam_search_spec (β : Type) (s : Speller) (impl : BeamImpl β)
    (inputs : List (List Tok)) (lst : Tensor3) (ratio : ℚ) (rand : ℕ → ℚ)
    (hFill : ∀ p n, (impl.fill_empty_sequence p n).length = n) :
    s.forward impl inputs lst ratio true rand
      = beamModeD s impl inputs lst (s.initState inputs.length) >>= finalize
    ∧ (beamFinal s impl inputs lst).length = lst.length
    ∧ (∀ st ∈ beamFinal s traceImpl inputs lst,
        st.2.2.length = (inputs.headD []).length - 1)
    ∧ (∀ y logits, s.forward impl inputs lst ratio true rand = .ok (y, logits) →
        ∀ b, b < lst.length →
          logits.getD b []
            = beamTopProb s impl ((inputs.headD []).length - 1)
                ((beamFinal s impl inputs lst).getD b (impl.init s.k s.sos_id s.eos_id))) := by
  have hlen : (beamFinal s impl inputs lst).length = lst.length := by
    unfold beamFinal
    rw [beamRun_length]
    simp
  refine ⟨rfl, hlen, ?_, ?_⟩
  · intro st hst
    obtain ⟨b0, hb0, hl⟩ := beamRun_trace s _ _ _ st hst
    obtain ⟨i, _, heq⟩ := List.mem_map.mp hb0
    rw [hl, ← heq]
    simp [traceImpl]
  · intro y logits hok b hb
    rw [forward_beam] at hok
    unfold finalize at hok
    split at hok
    · cases hok
    · simp only [Except.ok.injEq, Prod.mk.injEq] at hok
      obtain ⟨-, hlog⟩ := hok
      rw [← hlog]
      have hP : ∀ p ∈ (beamFinal s impl inputs lst).map
          (beamTopProb s impl ((inputs.headD []).length - 1)), p.length
            = (inputs.headD []).length - 1 := by
        intro p hp
        obtain ⟨q, -, hq⟩ := List.mem_map.mp hp
        rw [← hq]
        unfold beamTopProb
        exact hFill _ _
      rw [stack_transpose_getD _ _ hP b (by rw [List.length_map, hlen]; exact hb),
        getD_map_lt _ _ b (by rw [hlen]; exact hb) (impl.init s.k s.sos_id s.eos_id) []]

/-- C4 (witness): on a concrete call there is one beam per listener
batch item. -/
theorem beam_search_spec_witness :
    (beamFinal sTriv traceImpl [[1, 2]] [[[1], [1]]]).length
      = ([[[1], [1]]] : Tensor3).length :=
  (beam_search_spec (ℕ × Tok × List Mat) sTriv traceImpl [[1, 2]] [[[1], [1]]] 0
    (fun _ => 0) (fun p n => padTo_length n p)).2.1

end KoSpeech
